import Mathlib

/-!
Verification of the professional command-line calculator (app/operation,
app/calculation, app/calculator) against its specification.

Modelling conventions:
* Python `Decimal` values are modelled as exact rationals `ℚ`.  The
  `decimal` context rounding (28 significant digits) applies identically to
  the implementation expression and to the specification formula in every
  claim considered, so it is abstracted away; all other `Decimal` behaviour
  used by the code (exact comparison with `0`, field arithmetic) is faithful.
* Exceptions are modelled with `Except CalcError`; the error kinds follow the
  spec taxonomy (the source raises `ValueError` for the first four kinds and
  `IndexError` for `EmptyHistory`).
* The mutable `Calculation._result` cache and the mutable history list are
  modelled by explicit state passing: each stateful accessor returns its
  value together with the updated object.
-/

/-- Error kinds of the error taxonomy (spec section 7).  The source signals
the first four with `ValueError` and `emptyHistory` with `IndexError`. -/
inductive CalcError where
  | divisionByZero
  | unknownOperation
  | invalidNumberFormat
  | malformedInput
  | emptyHistory
deriving DecidableEq, Repr

/-- The closed variant type of operations (`Addition`, `Subtraction`,
`Multiplication`, `Division` in `app/operation/__init__.py`).  Instances are
stateless in the source, so each class is a single variant. -/
inductive Operation where
  | Addition
  | Subtraction
  | Multiplication
  | Division
deriving DecidableEq, Repr

/-- Embedding of the four `execute(self, a, b)` methods of
`app/operation/__init__.py`.  `Division.execute` raises
`ValueError("Cannot divide by zero")` when `b == 0`; the other three never
fail, hence always return `.ok`.  Purity of `execute` (the claim that it is a
function of its two inputs alone and mutates nothing) is structural in this
embedding: it is a Lean function of the operation variant and the operands. -/
def Operation.execute : Operation → ℚ → ℚ → Except CalcError ℚ
  | .Addition, a, b => .ok (a + b)
  | .Subtraction, a, b => .ok (a - b)
  | .Multiplication, a, b => .ok (a * b)
  | .Division, a, b => if b = 0 then .error .divisionByZero else .ok (a / b)

/-- Embedding of the `__str__` methods of the operation classes: the display
token of each variant. -/
def Operation.token : Operation → String
  | .Addition => "+"
  | .Subtraction => "-"
  | .Multiplication => "*"
  | .Division => "/"

/-- Embedding of `Calculation` (`app/calculation/__init__.py`): operands `a`
and `b`, the operation, and the mutable memo field `_result`, which
`__init__` sets to `None`. -/
structure Calculation where
  a : ℚ
  b : ℚ
  operation : Operation
  _result : Option ℚ
deriving DecidableEq, Repr

/-- Embedding of `Calculation.__init__` (and of
`CalculationFactory.create_calculation`, which merely calls it): the memo
field starts out `None`. -/
def Calculation.mkNew (a b : ℚ) (operation : Operation) : Calculation :=
  ⟨a, b, operation, none⟩

/-- Embedding of the `Calculation.result` property: if `_result` is `None` it
invokes `operation.execute(a, b)` — caching the value on success, and letting
the exception propagate (leaving `_result` untouched) on failure — and
otherwise returns the cached value.  The pair returned is
(raised-or-returned value, object state after the access). -/
def Calculation.resultStep (c : Calculation) : Except CalcError ℚ × Calculation :=
  match c._result with
  | some r => (.ok r, c)
  | none =>
    match c.operation.execute c.a c.b with
    | .ok r => (.ok r, { c with _result := some r })
    | .error e => (.error e, c)

/-- Number of times one access to the `result` property invokes
`operation.execute`, read off from the source: zero when the cache is
populated, one otherwise (both the success and the failure path call it
exactly once). -/
def Calculation.executeCalls (c : Calculation) : Nat :=
  match c._result with
  | some _ => 0
  | none => 1

/-- Object state after `n` successive accesses to the `result` property
(each access may populate the cache). -/
def Calculation.accessN (c : Calculation) : Nat → Calculation
  | 0 => c
  | n + 1 => ((c.accessN n).resultStep).2

/-- Display form of a rational operand or result.  The concrete digit string
`Decimal` would print is irrelevant to every claim below; only which operands
and token appear, and that formatting demands the result, matter. -/
def decStr (q : ℚ) : String :=
  if q.den = 1 then toString q.num else toString q.num ++ "/" ++ toString q.den

/-- Embedding of `Calculation.__str__`: the f-string
interpolating `a`, the operation token, `b` and `self.result`.  Accessing
`self.result` triggers lazy evaluation, so the method can raise; the pair is
(raised-or-returned value, object state after formatting). -/
def Calculation.strStep (c : Calculation) : Except CalcError String × Calculation :=
  match c.resultStep with
  | (.ok r, c1) =>
    (.ok (decStr c1.a ++ " " ++ c1.operation.token ++ " " ++ decStr c1.b
          ++ " = " ++ decStr r), c1)
  | (.error e, c1) => (.error e, c1)

/-- Embedding of `CalculationHistory` (`app/calculation/__init__.py`): the
private list `_history`, empty at construction. -/
structure CalculationHistory where
  _history : List Calculation
deriving DecidableEq, Repr

/-- Embedding of `CalculationHistory.__init__`: the empty history. -/
def CalculationHistory.emptyHistory : CalculationHistory := ⟨[]⟩

/-- Embedding of `CalculationHistory.add_calculation`: append to the end of
`_history`. -/
def CalculationHistory.add_calculation (h : CalculationHistory) (c : Calculation) :
    CalculationHistory :=
  ⟨h._history ++ [c]⟩

/-- Embedding of `CalculationHistory.get_history`, which returns
`self._history.copy()`: the value of the list at the moment of the call.
(The aliasing content of the `.copy()` is modelled separately with an
explicit store, see `ListStore` below.) -/
def CalculationHistory.get_history (h : CalculationHistory) : List Calculation :=
  h._history

/-- Embedding of `CalculationHistory.get_last_calculation`: raises
`IndexError` (`emptyHistory` kind) when `_history` is falsy (empty), else
returns `self._history[-1]`, the last element. -/
def CalculationHistory.get_last_calculation (h : CalculationHistory) :
    Except CalcError Calculation :=
  match h._history.getLast? with
  | none => .error .emptyHistory
  | some c => .ok c

/-- Embedding of `CalculationHistory.clear_history`: `_history.clear()`. -/
def CalculationHistory.clear_history (_h : CalculationHistory) : CalculationHistory :=
  ⟨[]⟩

/-- Embedding of `CalculationHistory.__len__`. -/
def CalculationHistory.lenHistory (h : CalculationHistory) : Nat :=
  h._history.length

/-- First claim: the four `execute` methods compute `a+b`, `a-b`, `a*b`, and
(for `b ≠ 0`) `a/b`; each is a pure function of its two operands (purity is
structural: `Operation.execute` is a Lean function of the variant and the
operands, with no other state). -/
theorem execute_computes_arithmetic (a b : ℚ) :
    Operation.execute .Addition a b = .ok (a + b) ∧
    Operation.execute .Subtraction a b = .ok (a - b) ∧
    Operation.execute .Multiplication a b = .ok (a * b) ∧
    (b ≠ 0 → Operation.execute .Division a b = .ok (a / b)) := by
  refine ⟨rfl, rfl, rfl, fun hb => ?_⟩
  simp [Operation.execute, hb]

/-- Witness for `execute_computes_arithmetic` at a = 6, b = 3. -/
theorem execute_computes_arithmetic_witness :
    Operation.execute .Addition 6 3 = .ok 9 ∧
    Operation.execute .Division 6 3 = .ok 2 := by
  obtain ⟨h1, _, _, h4⟩ := execute_computes_arithmetic 6 3
  refine ⟨by rw [h1]; norm_num, ?_⟩
  rw [h4 (by norm_num)]; norm_num

/-- Second claim: dividing by a zero second operand raises the
division-by-zero error, for every first operand. -/
theorem division_by_zero_raises (a b : ℚ) (hb : b = 0) :
    Operation.execute .Division a b = .error .divisionByZero := by
  simp [Operation.execute, hb]

/-- Witness for `division_by_zero_raises` at a = 5, b = 0. -/
theorem division_by_zero_raises_witness :
    Operation.execute .Division 5 0 = .error .divisionByZero :=
  division_by_zero_raises 5 0 rfl

/-- Helper: an access that raises leaves the object unchanged (the cache
assignment in the source happens only after `execute` returns). -/
theorem resultStep_error_state (c : Calculation) (e : CalcError)
    (h : (c.resultStep).1 = .error e) : (c.resultStep).2 = c := by
  cases hc : c._result with
  | some v => simp [Calculation.resultStep, hc]
  | none =>
    cases he : c.operation.execute c.a c.b with
    | ok v => simp [Calculation.resultStep, hc, he] at h
    | error e1 => simp [Calculation.resultStep, hc, he]

/-- Helper: an access can only raise when the cache is empty. -/
theorem resultStep_error_cache_none (c : Calculation) (e : CalcError)
    (h : (c.resultStep).1 = .error e) : c._result = none := by
  cases hc : c._result with
  | some v => simp [Calculation.resultStep, hc] at h
  | none => rfl

/-- Helper: a successful access leaves `r` in the cache. -/
theorem resultStep_ok_cache (c : Calculation) (r : ℚ)
    (h : (c.resultStep).1 = .ok r) : ((c.resultStep).2)._result = some r := by
  cases hc : c._result with
  | some v =>
    simp [Calculation.resultStep, hc] at h ⊢
    exact h
  | none =>
    cases he : c.operation.execute c.a c.b with
    | ok v => simp [Calculation.resultStep, hc, he] at h ⊢; exact h
    | error e1 => simp [Calculation.resultStep, hc, he] at h

/-- Helper: an access on a populated cache returns the cached value and does
not change the object. -/
theorem resultStep_cached (c : Calculation) (r : ℚ) (h : c._result = some r) :
    c.resultStep = (.ok r, c) := by
  simp [Calculation.resultStep, h]

/-- Helper: repeated accesses after a raising access never change the
object. -/
theorem accessN_of_error (c : Calculation) (e : CalcError)
    (h : (c.resultStep).1 = .error e) : ∀ n, c.accessN n = c := by
  intro n
  induction n with
  | zero => rfl
  | succ n ih =>
    show ((c.accessN n).resultStep).2 = c
    rw [ih, resultStep_error_state c e h]

/-- Fourth claim: if the first access to `result` raises the
division-by-zero error, then every subsequent access raises the same error
again; the failure is not cached (the cache stays empty, so every access
re-invokes `execute`, which deterministically fails). -/
theorem failed_result_refails (c : Calculation)
    (h : (c.resultStep).1 = .error .divisionByZero) :
    ∀ n, ((c.accessN n).resultStep).1 = .error .divisionByZero ∧
      (c.accessN n).executeCalls = 1 := by
  intro n
  rw [accessN_of_error c _ h]
  refine ⟨h, ?_⟩
  rw [Calculation.executeCalls, resultStep_error_cache_none c _ h]

/-- Witness for `failed_result_refails`: the calculation 5 / 0 fails on its
first, second and fourth access alike, re-invoking `execute` each time. -/
theorem failed_result_refails_witness :
    (((Calculation.mkNew 5 0 .Division).accessN 3).resultStep).1
        = .error .divisionByZero ∧
    ((Calculation.mkNew 5 0 .Division).accessN 3).executeCalls = 1 :=
  failed_result_refails (Calculation.mkNew 5 0 .Division)
    (by simp [Calculation.mkNew, Calculation.resultStep, Operation.execute]) 3

/-- Fifth claim: if the first access to `result` succeeds with value `r`,
the value is cached, and every later access returns the identical `r`
without invoking `execute` again (`executeCalls = 0`) and without ever
changing the object or its cached result. -/
theorem result_memoized (c : Calculation) (r : ℚ)
    (h : (c.resultStep).1 = .ok r) :
    ((c.resultStep).2)._result = some r ∧
    ((c.resultStep).2).executeCalls = 0 ∧
    ∀ n, (((c.resultStep).2).accessN n).resultStep = (.ok r, (c.resultStep).2) := by
  have hcache := resultStep_ok_cache c r h
  refine ⟨hcache, by rw [Calculation.executeCalls, hcache], ?_⟩
  have hstep := resultStep_cached _ r hcache
  intro n
  induction n with
  | zero => exact hstep
  | succ n ih =>
    show (((((c.resultStep).2).accessN n).resultStep).2).resultStep = _
    rw [ih, hstep]

/-- Witness for `result_memoized`: the calculation 2 + 3 caches 5 after its
first access, and the third access still returns 5 without re-executing. -/
theorem result_memoized_witness :
    (((Calculation.mkNew 2 3 .Addition).resultStep).2)._result = some 5 ∧
    (((Calculation.mkNew 2 3 .Addition).resultStep).2).executeCalls = 0 ∧
    ((((Calculation.mkNew 2 3 .Addition).resultStep).2).accessN 2).resultStep
        = (.ok 5, ((Calculation.mkNew 2 3 .Addition).resultStep).2) := by
  obtain ⟨h1, h2, h3⟩ := result_memoized (Calculation.mkNew 2 3 .Addition) 5
    (by norm_num [Calculation.mkNew, Calculation.resultStep, Operation.execute])
  exact ⟨h1, h2, h3 2⟩

/-- Sixth claim: appending C1, C2, C3 (duplicates allowed: the operands are
arbitrary and may coincide) to an initially empty history makes
`get_history()` return exactly `[C1, C2, C3]` in insertion order and
`get_last_calculation()` return C3. -/
theorem history_insertion_order (c1 c2 c3 : Calculation) :
    (((CalculationHistory.emptyHistory.add_calculation c1).add_calculation
        c2).add_calculation c3).get_history = [c1, c2, c3] ∧
    (((CalculationHistory.emptyHistory.add_calculation c1).add_calculation
        c2).add_calculation c3).get_last_calculation = .ok c3 := by
  constructor
  · rfl
  · simp [CalculationHistory.emptyHistory, CalculationHistory.add_calculation,
      CalculationHistory.get_last_calculation]

/-- Heap of list cells, modelling Python list objects: a cell per allocated
list, references are indices.  This captures the aliasing behaviour that the
pure embedding of `get_history` cannot: `list.copy()` allocates a fresh
cell. -/
structure ListStore where
  cells : List (List Calculation)
deriving DecidableEq, Repr

/-- Allocation of a fresh list cell holding `v`; returns the new store and
the reference to the fresh cell. -/
def ListStore.alloc (s : ListStore) (v : List Calculation) : ListStore × Nat :=
  (⟨s.cells ++ [v]⟩, s.cells.length)

/-- Contents of the cell behind reference `r`. -/
def ListStore.readRef (s : ListStore) (r : Nat) : List Calculation :=
  s.cells.getD r []

/-- Overwriting of the cell behind reference `r`. -/
def ListStore.writeRef (s : ListStore) (r : Nat) (v : List Calculation) : ListStore :=
  ⟨s.cells.set r v⟩

/-- Store-level embedding of `CalculationHistory.get_history`, whose body is
`return self._history.copy()`: with `h` the reference held in the private
`_history` field, `.copy()` allocates a fresh cell with the same contents
and the caller receives the fresh reference. -/
def getHistoryRef (s : ListStore) (h : Nat) : ListStore × Nat :=
  s.alloc (s.readRef h)

/-- An arbitrary in-place mutation of the list behind reference `r`
(appending, removing or reordering elements are all instances of `f`). -/
def mutateRef (s : ListStore) (r : Nat) (f : List Calculation → List Calculation) :
    ListStore :=
  s.writeRef r (f (s.readRef r))

/-- Seventh claim: `get_history()` hands out a snapshot copy.  For a history
whose `_history` field holds a valid reference `h`, mutating the returned
list (any function `f` of its contents) leaves the stored list, and hence
its reported length, unchanged for subsequent reads. -/
theorem get_history_snapshot (s : ListStore) (h : Nat) (hh : h < s.cells.length)
    (f : List Calculation → List Calculation) :
    (mutateRef (getHistoryRef s h).1 (getHistoryRef s h).2 f).readRef h
        = s.readRef h ∧
    ((mutateRef (getHistoryRef s h).1 (getHistoryRef s h).2 f).readRef h).length
        = (s.readRef h).length := by
  have hne : s.cells.length ≠ h := Nat.ne_of_gt hh
  have hread :
      (mutateRef (getHistoryRef s h).1 (getHistoryRef s h).2 f).readRef h
        = s.readRef h := by
    simp only [mutateRef, getHistoryRef, ListStore.alloc, ListStore.readRef,
      ListStore.writeRef, List.getD_eq_getElem?_getD]
    rw [List.getElem?_set_ne hne, List.getElem?_append]
    simp [hh]
  exact ⟨hread, by rw [hread]⟩

/-- Witness for `get_history_snapshot`: a one-cell store; clearing the copy
returned by `get_history` leaves the stored one-element list intact. -/
theorem get_history_snapshot_witness :
    (mutateRef (getHistoryRef ⟨[[Calculation.mkNew 1 2 .Addition]]⟩ 0).1
        (getHistoryRef ⟨[[Calculation.mkNew 1 2 .Addition]]⟩ 0).2
        (fun _ => [])).readRef 0
      = ListStore.readRef ⟨[[Calculation.mkNew 1 2 .Addition]]⟩ 0 ∧
    ((mutateRef (getHistoryRef ⟨[[Calculation.mkNew 1 2 .Addition]]⟩ 0).1
        (getHistoryRef ⟨[[Calculation.mkNew 1 2 .Addition]]⟩ 0).2
        (fun _ => [])).readRef 0).length
      = (ListStore.readRef ⟨[[Calculation.mkNew 1 2 .Addition]]⟩ 0).length :=
  get_history_snapshot ⟨[[Calculation.mkNew 1 2 .Addition]]⟩ 0
    (by simp) (fun _ => [])

/-- Eighth claim: `get_last_calculation()` on a history of length 0 — in
particular the freshly constructed history and any history just cleared by
`clear_history()` — raises the empty-history error instead of returning a
calculation. -/
theorem get_last_on_empty_fails (h : CalculationHistory)
    (hl : h.lenHistory = 0) :
    h.get_last_calculation = .error .emptyHistory ∧
    CalculationHistory.emptyHistory.get_last_calculation
        = .error .emptyHistory ∧
    ∀ h2 : CalculationHistory,
      (h2.clear_history).get_last_calculation = .error .emptyHistory := by
  have hnil : h._history = [] := by
    simpa [CalculationHistory.lenHistory] using hl
  refine ⟨?_, rfl, fun h2 => rfl⟩
  simp [CalculationHistory.get_last_calculation, hnil]

/-- Witness for `get_last_on_empty_fails` at the fresh empty history. -/
theorem get_last_on_empty_fails_witness :
    CalculationHistory.emptyHistory.get_last_calculation
        = .error .emptyHistory ∧
    (CalculationHistory.clear_history ⟨[Calculation.mkNew 1 2 .Addition]⟩).get_last_calculation
        = .error .emptyHistory := by
  obtain ⟨h1, _, h3⟩ := get_last_on_empty_fails CalculationHistory.emptyHistory rfl
  exact ⟨h1, h3 ⟨[Calculation.mkNew 1 2 .Addition]⟩⟩

/-- Accumulating worker for `pySplit`: the second argument is the reversed
run of non-whitespace characters read so far. -/
def splitWsAux : List Char → List Char → List String
  | [], acc => if acc.isEmpty then [] else [String.mk acc.reverse]
  | c :: cs, acc =>
    if c.isWhitespace then
      if acc.isEmpty then splitWsAux cs []
      else String.mk acc.reverse :: splitWsAux cs []
    else splitWsAux cs (c :: acc)

/-- Embedding of Python `str.split()` with no separator, as used by
`user_input.split()` in `Calculator._process_calculation`: split on runs of
whitespace, discarding empty fields. -/
def pySplit (s : String) : List String :=
  splitWsAux s.data []

/-- Embedding of Python `str.lower()`, as applied to the operation token in
`Calculator._process_calculation` (`parts[1].lower()`); the claims exercise
only ASCII tokens, for which the simple character case map is exact. -/
def pyLower (s : String) : String :=
  String.mk (s.data.map Char.toLower)

/-- Numeric value of a list of decimal digit characters. -/
def digitsVal (cs : List Char) : Nat :=
  cs.foldl (fun n c => n * 10 + (c.toNat - 48)) 0

/-- Modelled from the spec: the host's decimal numeral parser (the
`Decimal(str)` constructor of the standard library, which is not part of the
repository).  Per the spec, operands are "accepted in any standard decimal
numeral syntax understood by the host's arbitrary/fixed-precision decimal
parser"; this model accepts an optional sign followed by digits with an
optional fractional part (scientific notation and the non-finite special
values are beyond what any claim exercises). -/
def parseDecimalRep (s : String) : Option (Int × Nat) :=
  let withSign : Int × List Char :=
    match s.data with
    | '-' :: r => (-1, r)
    | '+' :: r => (1, r)
    | r => (1, r)
  let intPart := withSign.2.takeWhile Char.isDigit
  let rest := withSign.2.dropWhile Char.isDigit
  match rest with
  | [] =>
    if intPart.isEmpty then none
    else some (withSign.1 * (digitsVal intPart : Int), 1)
  | '.' :: frac =>
    if frac.all Char.isDigit && !(intPart.isEmpty && frac.isEmpty) then
      some (withSign.1 *
        ((digitsVal intPart : Int) * 10 ^ frac.length + (digitsVal frac : Int)),
        10 ^ frac.length)
    else none
  | _ => none

/-- Value of a parsed decimal numeral: numerator over power-of-ten
denominator (see `parseDecimalRep`). -/
def parseDecimal (s : String) : Option ℚ :=
  (parseDecimalRep s).map (fun p => (p.1 : ℚ) / (p.2 : ℚ))

/-- Embedding of the `self.operations` dictionary built in
`Calculator.__init__`: an association list from token to operation variant
(the dictionary's per-instance `Operation` objects are stateless, so the
variant tag is all that matters). -/
def operationsTable : List (String × Operation) :=
  [("+", .Addition), ("-", .Subtraction), ("*", .Multiplication),
   ("/", .Division), ("add", .Addition), ("subtract", .Subtraction),
   ("multiply", .Multiplication), ("divide", .Division)]

/-- Dictionary lookup `self.operations[key]` together with the membership
test `key in self.operations`: `some` exactly when the key is present. -/
def operations (s : String) : Option Operation :=
  (operationsTable.find? (fun p => p.1 == s)).map Prod.snd

/-- Embedding of the `Calculator` state touched by the claims: its
`CalculationHistory`.  The operations dictionary is identical for every
instance and is modelled by the process-wide `operations` above; the factory
is stateless. -/
structure Calculator where
  history : CalculationHistory
deriving DecidableEq, Repr

/-- Embedding of `Calculator.__init__`: a fresh empty history. -/
def Calculator.initCalc : Calculator := ⟨CalculationHistory.emptyHistory⟩

/-- Embedding of `Calculator._process_calculation` (the interactive path):
split the input into exactly three fields, lowercase the middle field and
look it up in the operations table, parse both operand fields as decimals,
build the calculation via the factory and access `result`; only on success
is the calculation appended to the history.  Every `ValueError` branch
(malformed input, unknown operation, invalid number, division by zero) is
caught and reported, leaving the calculator unchanged.  The pair returned is
(reported outcome, calculator state afterwards), where a successful outcome
carries the appended calculation (whose result is now cached). -/
def Calculator.processCalculation (cal : Calculator) (input : String) :
    Except CalcError Calculation × Calculator :=
  match pySplit input with
  | [s0, s1, s2] =>
    match operations (pyLower s1) with
    | none => (.error .unknownOperation, cal)
    | some op =>
      match parseDecimal s0, parseDecimal s2 with
      | some a, some b =>
        match (Calculation.mkNew a b op).resultStep with
        | (.ok _, c1) => (.ok c1, ⟨cal.history.add_calculation c1⟩)
        | (.error e, _) => (.error e, cal)
      | _, _ => (.error .invalidNumberFormat, cal)
  | _ => (.error .malformedInput, cal)

/-- Embedding of `Calculator.calculate` (the programmatic path): look the
token up in the operations table as given — no lowercasing — raising the
unknown-operation `ValueError` if absent; build the calculation, access
`result` (letting any error propagate before the history is touched), then
append and return the result. -/
def Calculator.calculate (cal : Calculator) (a : ℚ) (opStr : String) (b : ℚ) :
    Except CalcError ℚ × Calculator :=
  match operations opStr with
  | none => (.error .unknownOperation, cal)
  | some op =>
    match (Calculation.mkNew a b op).resultStep with
    | (.ok r, c1) => (.ok r, ⟨cal.history.add_calculation c1⟩)
    | (.error e, _) => (.error e, cal)

/-- Helper: `_process_calculation` either appends one successfully computed
calculation to the history or reports an error leaving the calculator
exactly as it was. -/
theorem processCalculation_cases (cal : Calculator) (input : String) :
    (∃ c1, cal.processCalculation input
        = (.ok c1, ⟨cal.history.add_calculation c1⟩)) ∨
    (∃ e, cal.processCalculation input = (.error e, cal)) := by
  unfold Calculator.processCalculation
  split
  · split
    · exact .inr ⟨_, rfl⟩
    · split
      · split
        · exact .inl ⟨_, rfl⟩
        · exact .inr ⟨_, rfl⟩
      · exact .inr ⟨_, rfl⟩
  · exact .inr ⟨_, rfl⟩

/-- Helper: `calculate` either appends one successfully computed calculation
to the history or raises leaving the calculator exactly as it was. -/
theorem calculate_cases (cal : Calculator) (a : ℚ) (s : String) (b : ℚ) :
    (∃ r c1, (cal.calculate a s b)
        = (.ok r, ⟨cal.history.add_calculation c1⟩)) ∨
    (∃ e, cal.calculate a s b = (.error e, cal)) := by
  unfold Calculator.calculate
  split
  · exact .inr ⟨_, rfl⟩
  · split
    · exact .inl ⟨_, _, rfl⟩
    · exact .inr ⟨_, rfl⟩

/-- Third claim: a calculation that fails (in particular with the
division-by-zero error, as input "5 / 0" does) is never appended: on any
reported error both the interactive path `_process_calculation` and the
programmatic path `calculate` leave the history unchanged, and "5 / 0"
reports exactly the division-by-zero error. -/
theorem failed_calculation_leaves_history (cal : Calculator) (input : String)
    (a : ℚ) (s : String) (b : ℚ) (e : CalcError) :
    ((cal.processCalculation input).1 = .error e →
      ((cal.processCalculation input).2).history = cal.history) ∧
    ((cal.calculate a s b).1 = .error e →
      ((cal.calculate a s b).2).history = cal.history) ∧
    (Calculator.initCalc.processCalculation "5 / 0").1
        = .error .divisionByZero := by
  refine ⟨fun h => ?_, fun h => ?_, ?_⟩
  · rcases processCalculation_cases cal input with ⟨c1, hc⟩ | ⟨e1, hc⟩
    · rw [hc] at h; exact absurd h (by simp)
    · rw [hc]
  · rcases calculate_cases cal a s b with ⟨r, c1, hc⟩ | ⟨e1, hc⟩
    · rw [hc] at h; exact absurd h (by simp)
    · rw [hc]
  · have hsplit : pySplit "5 / 0" = ["5", "/", "0"] := by rfl
    have hop : operations (pyLower "/") = some .Division := by rfl
    have ha : parseDecimal "5" = some 5 := by
      rw [parseDecimal, show parseDecimalRep "5" = some (5, 1) from by decide]
      norm_num
    have hb : parseDecimal "0" = some 0 := by
      rw [parseDecimal, show parseDecimalRep "0" = some (0, 1) from by decide]
      norm_num
    simp only [Calculator.processCalculation, hsplit, hop, ha, hb]
    norm_num [Calculation.mkNew, Calculation.resultStep, Operation.execute]

/-- Witness for `failed_calculation_leaves_history`: submitting "5 / 0"
interactively, and 5 / 0 programmatically, both leave the fresh calculator's
history unchanged. -/
theorem failed_calculation_leaves_history_witness :
    ((Calculator.initCalc.processCalculation "5 / 0").2).history
        = Calculator.initCalc.history ∧
    ((Calculator.initCalc.calculate 5 "/" 0).2).history
        = Calculator.initCalc.history := by
  obtain ⟨hp, hc, h3⟩ := failed_calculation_leaves_history
    Calculator.initCalc "5 / 0" 5 "/" 0 .divisionByZero
  refine ⟨hp h3, hc ?_⟩
  have hop : operations "/" = some .Division := by rfl
  simp only [Calculator.calculate, hop]
  norm_num [Calculation.mkNew, Calculation.resultStep, Operation.execute]

/-- Helper: no key of the operations dictionary contains an uppercase
letter, so lookup of any token containing one misses. -/
theorem operations_none_of_upper (s : String)
    (h : s.data.any Char.isUpper = true) : operations s = none := by
  cases hf : operationsTable.find? (fun p => p.1 == s) with
  | none => simp [operations, hf]
  | some p =>
    exfalso
    have hpred := List.find?_some hf
    have hmem : p ∈ operationsTable := List.mem_of_find?_eq_some hf
    have hps : p.1 = s := by simpa using hpred
    rw [← hps] at h
    simp only [operationsTable, List.mem_cons, List.not_mem_nil, or_false] at hmem
    rcases hmem with h1 | h1 | h1 | h1 | h1 | h1 | h1 | h1 <;>
      (rw [h1] at h; exact absurd h (by decide))

/-- Ninth claim: the programmatic entry point `calculate` is case-sensitive,
unlike the interactive loop: any token containing an uppercase letter (all
dictionary keys are lowercase words or symbols) raises the
unknown-operation error and leaves the history unchanged, whereas the
interactive path lowercases the token first, so the input "5 ADD 3" is
accepted and computes 5 + 3 = 8. -/
theorem calculate_case_sensitive (cal : Calculator) (s : String) (a b : ℚ)
    (hs : s.data.any Char.isUpper = true) :
    (cal.calculate a s b).1 = .error .unknownOperation ∧
    ((cal.calculate a s b).2).history = cal.history ∧
    (Calculator.initCalc.processCalculation "5 ADD 3").1
        = .ok ⟨5, 3, .Addition, some 8⟩ := by
  have hnone := operations_none_of_upper s hs
  refine ⟨?_, ?_, ?_⟩
  · simp [Calculator.calculate, hnone]
  · simp [Calculator.calculate, hnone]
  · have hsplit : pySplit "5 ADD 3" = ["5", "ADD", "3"] := by rfl
    have hop : operations (pyLower "ADD") = some .Addition := by rfl
    have ha : parseDecimal "5" = some 5 := by
      rw [parseDecimal, show parseDecimalRep "5" = some (5, 1) from by decide]
      norm_num
    have hb : parseDecimal "3" = some 3 := by
      rw [parseDecimal, show parseDecimalRep "3" = some (3, 1) from by decide]
      norm_num
    simp only [Calculator.processCalculation, hsplit, hop, ha, hb]
    norm_num [Calculation.mkNew, Calculation.resultStep, Operation.execute]

/-- Witness for `calculate_case_sensitive` at the token "ADD". -/
theorem calculate_case_sensitive_witness :
    (Calculator.initCalc.calculate 5 "ADD" 3).1 = .error .unknownOperation ∧
    ((Calculator.initCalc.calculate 5 "ADD" 3).2).history
        = Calculator.initCalc.history ∧
    (Calculator.initCalc.processCalculation "5 ADD 3").1
        = .ok ⟨5, 3, .Addition, some 8⟩ :=
  calculate_case_sensitive Calculator.initCalc "ADD" 5 3 (by decide)

/-- Tenth claim: formatting a calculation as its display string demands
`result` and hence triggers lazy evaluation: a division calculation with
second operand 0 (in any of its reachable states: freshly constructed or
after any number of failing accesses) raises the division-by-zero error from
`__str__` instead of returning a string, while for any calculation whose
result evaluation succeeds, `__str__` leaves the result memoized. -/
theorem str_triggers_lazy_evaluation (a : ℚ) (n : Nat) (c : Calculation)
    (r : ℚ) (h : (c.resultStep).1 = .ok r) :
    (((Calculation.mkNew a 0 .Division).accessN n).strStep).1
        = .error .divisionByZero ∧
    ((c.strStep).2)._result = some r := by
  constructor
  · have herr : ((Calculation.mkNew a 0 .Division).resultStep).1
        = .error .divisionByZero := by
      simp [Calculation.mkNew, Calculation.resultStep, Operation.execute]
    rw [accessN_of_error _ _ herr]
    rcases hp : (Calculation.mkNew a 0 .Division).resultStep with ⟨res, c2⟩
    rw [hp] at herr
    simp only at herr
    rw [herr] at hp
    simp [Calculation.strStep, hp]
  · have hcache := resultStep_ok_cache c r h
    rcases hp : c.resultStep with ⟨res, c2⟩
    rw [hp] at h hcache
    simp only at h hcache
    rw [h] at hp
    simp [Calculation.strStep, hp, hcache]

/-- Witness for `str_triggers_lazy_evaluation`: the division 5 / 0 raises
from its display form even after two earlier failing accesses, and after
formatting 2 + 3 the value 5 is cached. -/
theorem str_triggers_lazy_evaluation_witness :
    (((Calculation.mkNew 5 0 .Division).accessN 2).strStep).1
        = .error .divisionByZero ∧
    (((Calculation.mkNew 2 3 .Addition).strStep).2)._result = some 5 :=
  str_triggers_lazy_evaluation 5 2 (Calculation.mkNew 2 3 .Addition) 5
    (by norm_num [Calculation.mkNew, Calculation.resultStep, Operation.execute])
